import Mathlib

/-!
Verification of the read-access filtering proxy of gprime
(src/gprime/proxy/proxybase.py), as a shallow embedding in Lean 4.

Entities are opaque except for their handle and their computed inclusion
flag (spec section 3).  The wrapped store is modelled as a record of the
read operations the proxy consults, parameterised over the nine entity
kinds (the nine per-kind method families of the source are textually
identical up to the accessor names, so one kind-indexed definition embeds
all of them; the Person/Family special path is kept via usesBaseSort).

Python dynamic typing matters in two places and is modelled explicitly:
  - `filter(pred, xs)` where the predicate is the class default None keeps
    the TRUTHY elements of xs (a str is truthy iff nonempty), so
    iter_K_handles with an unset predicate drops empty-string handles;
  - handles flow around both as str and as bytes (the base store handle
    list is decoded with str(hdl, "utf-8") at proxybase.py line 326, so
    its elements are bytes); `bytes(x, "utf-8")` raises TypeError when x
    is already bytes, `str(x, "utf-8")` raises TypeError when x is str.
Raising operations return `Except PyError`.
-/

/-- An entity: opaque to the proxy except for its handle, its computed
inclusion flag (the result of obj.include()) and an opaque payload. -/
structure Obj where
  handle : String
  includable : Bool
  payload : Nat
deriving DecidableEq, Repr

/-- The serialized (wire) form of an entity, the result of obj.to_struct().
Serialization is re-run on the current entity, so it is a function of the
entity alone. -/
structure Struct where
  st_handle : String
  st_include : Bool
  st_payload : Nat
deriving DecidableEq, Repr

/-- obj.to_struct(): serialize the entity. -/
def to_struct (o : Obj) : Struct :=
  ⟨o.handle, o.includable, o.payload⟩

/-- A Python value holding a handle: either a str or a bytes object whose
utf-8 decoding is the carried string. -/
inductive PyHandle where
  | str (s : String)
  | bytes (s : String)
deriving DecidableEq, Repr

/-- The Python exceptions the embedded code can raise. -/
inductive PyError where
  | typeError
  | attributeError
  | indexError
deriving DecidableEq, Repr

/-- Python bytes(x, "utf-8"): encodes a str, raises TypeError on bytes
(encoding without a string argument). -/
def pyBytes : PyHandle → Except PyError PyHandle
  | .str s => .ok (.bytes s)
  | .bytes _ => .error .typeError

/-- Python str(x, "utf-8"): decodes bytes, raises TypeError on str
(decoding str is not supported). -/
def pyStr : PyHandle → Except PyError String
  | .bytes s => .ok s
  | .str _ => .error .typeError

/-- Python truthiness of a str: nonempty strings are truthy. -/
def pyTruthy (s : String) : Bool :=
  s != ""

/-- The nine entity kinds plus Tag (spec section 3). -/
inductive Kind where
  | person | family | event | place | source | citation | repository | media | note | tag
deriving DecidableEq, Repr

/-- The kinds whose get_K_handles goes through the base store sorted list
(proxybase.py lines 318-340: Person and Family only). -/
def usesBaseSort : Kind → Bool
  | .person => true
  | .family => true
  | _ => false

/-- The lower-case name of a kind as it appears inside method names. -/
def kindName : Kind → String
  | .person => "person"
  | .family => "family"
  | .event => "event"
  | .place => "place"
  | .source => "source"
  | .citation => "citation"
  | .repository => "repository"
  | .media => "media"
  | .note => "note"
  | .tag => "tag"

/-- The kind a lower-case name stands for, if any. -/
def kindOfName (s : String) : Option Kind :=
  if s = "person" then some .person
  else if s = "family" then some .family
  else if s = "event" then some .event
  else if s = "place" then some .place
  else if s = "source" then some .source
  else if s = "citation" then some .citation
  else if s = "repository" then some .repository
  else if s = "media" then some .media
  else if s = "note" then some .note
  else if s = "tag" then some .tag
  else none

/-- The read interface of a store as the proxy consults it: a concrete base
store or another proxy.  get_handles returns the Python-typed handle list
(bytes for a base store per-kind index, see module comment); it is
Except-valued because for a proxy the computation can raise. -/
structure Db where
  is_open : Bool
  get_from_handle : Kind → String → Option Obj
  get_from_gid : Kind → String → Option Obj
  iter_handles : Kind → List String
  iter_objs : Kind → List Obj
  get_handles : Kind → Bool → Except PyError (List PyHandle)
  find_initial_person : Option Obj

/-- One optional inclusion predicate per kind; the class default is None
for every kind (proxybase.py lines 266-276). -/
def Preds : Type :=
  Kind → Option (String → Bool)

/-- The all-None predicate assignment, i.e. every predicate left at its
class default. -/
def prNone : Preds :=
  fun _ => none

/-- ProxyDbBase.gfilter (proxybase.py lines 581-588): returns obj if the
predicate is None or obj is None, else obj when the predicate accepts
obj.handle, else None. -/
def gfilter (predicate : Option (String → Bool)) (obj : Option Obj) : Option Obj :=
  match predicate, obj with
  | some f, some o => if f o.handle then some o else none
  | _, _ => obj

/-- Python filter(p, xs) over strings: with a real predicate it keeps the
elements the predicate accepts; with None it keeps the truthy elements. -/
def pyFilter (p : Option (String → Bool)) (xs : List String) : List String :=
  match p with
  | some f => xs.filter f
  | none => xs.filter pyTruthy

/-- ProxyDbBase.__iter_object (proxybase.py lines 501-509), order_by=None
path: keeps obj when the selector is None or accepts obj.handle. -/
def iterObject (selector : Option (String → Bool)) (objs : List Obj) : List Obj :=
  objs.filter (fun o =>
    match selector with
    | none => true
    | some f => f o.handle)

/-- The list comprehension of get_person_handles (proxybase.py line 326):
for each element decode it with str(hdl, "utf-8") (raising TypeError on a
str element) and keep it when the decoding is in the proxied set. -/
def filterDecodeMem (proxied : List String) : List PyHandle → Except PyError (List PyHandle)
  | [] => .ok []
  | x :: xs => do
    let s ← pyStr x
    let rest ← filterDecodeMem proxied xs
    pure (if s ∈ proxied then x :: rest else rest)

/-- Pure form of the line 326 comprehension test on an all-bytes list. -/
def bytesMem (proxied : List String) : PyHandle → Bool
  | .bytes s => decide (s ∈ proxied)
  | .str _ => false

/-- get_K_from_handle (proxybase.py lines 614-692): delegate to the wrapped
store, then gfilter through the kind predicate. -/
def proxy_get_from_handle (pred : Preds) (db : Db) (k : Kind) (h : String) : Option Obj :=
  gfilter (pred k) (db.get_from_handle k h)

/-- get_K_from_gid (proxybase.py lines 694-772): same through the gid space. -/
def proxy_get_from_gid (pred : Preds) (db : Db) (k : Kind) (g : String) : Option Obj :=
  gfilter (pred k) (db.get_from_gid k g)

/-- iter_K_handles (proxybase.py lines 430-499):
filter(self.include_K, self.db.iter_K_handles()). -/
def proxy_iter_handles (pred : Preds) (db : Db) (k : Kind) : List String :=
  pyFilter (pred k) (db.iter_handles k)

/-- iter_Ks (proxybase.py lines 511-579), order_by=None path. -/
def proxy_iter_objs (pred : Preds) (db : Db) (k : Kind) : List Obj :=
  iterObject (pred k) (db.iter_objs k)

/-- has_K_handle (proxybase.py lines 971-1049): the gfiltered lookup is not
None. -/
def proxy_has_handle (pred : Preds) (db : Db) (k : Kind) (h : String) : Bool :=
  (gfilter (pred k) (db.get_from_handle k h)).isSome

/-- get_K_handles (proxybase.py lines 318-420).  For Person and Family:
when the wrapped store is open, intersect the base store handle list with
the proxied (filtered) handle set, decoding each base element with
str(hdl, "utf-8"); otherwise the empty list.  For the other kinds:
list(self.iter_K_handles()) when open, else the empty list. -/
def proxyGetHandles (pred : Preds) (db basedb : Db) (k : Kind) (sort : Bool) :
    Except PyError (List PyHandle) :=
  if db.is_open then
    if usesBaseSort k then do
      let all ← basedb.get_handles k sort
      filterDecodeMem (pyFilter (pred k) (db.iter_handles k)) all
    else
      .ok ((pyFilter (pred k) (db.iter_handles k)).map PyHandle.str)
  else
    .ok []

/-- get_raw_K_data (proxybase.py lines 941-969):
self.get_K_from_handle(handle).to_struct().  When the filtered lookup is
None, Python evaluates None.to_struct() and raises AttributeError. -/
def proxy_get_raw_data (pred : Preds) (db : Db) (k : Kind) (h : String) : Except PyError Struct :=
  match gfilter (pred k) (db.get_from_handle k h) with
  | some o => .ok (to_struct o)
  | none => .error .attributeError

/-- get_raw_K_data fed a Python-typed handle, as the cursor does.  A bytes
key misses the str-keyed lookup of the wrapped store, so the lookup is
None and None.to_struct() raises AttributeError. -/
def proxy_get_raw_data_py (pred : Preds) (db : Db) (k : Kind) : PyHandle → Except PyError Struct
  | .str s => proxy_get_raw_data pred db k s
  | .bytes _ => .error .attributeError

/-- find_initial_person (proxybase.py lines 1103-1112): take the base store
initial person; return it only when it is truthy (an entity always is) and
has_person_handle accepts its handle, else None. -/
def proxy_find_initial_person (pred : Preds) (db basedb : Db) : Option Obj :=
  match basedb.find_initial_person with
  | some person =>
    if proxy_has_handle pred db .person person.handle then some person else none
  | none => none

/-- The proxy over a wrapped store, assembled from the per-operation
definitions above (ProxyDbBase, proxybase.py lines 80-1119).  db is the
immediately wrapped reference, basedb the innermost non-proxy store
computed by __init__ (lines 95-97).  is_open delegates to the wrapped
reference (line 246). -/
def proxyDb (pred : Preds) (db basedb : Db) : Db where
  is_open := db.is_open
  get_from_handle := fun k h => proxy_get_from_handle pred db k h
  get_from_gid := fun k g => proxy_get_from_gid pred db k g
  iter_handles := fun k => proxy_iter_handles pred db k
  iter_objs := fun k => proxy_iter_objs pred db k
  get_handles := fun k sort => proxyGetHandles pred db basedb k sort
  find_initial_person := proxy_find_initial_person pred db basedb

/-- A proxy chain: a base store wrapped by zero or more proxies, each with
its own predicate assignment. -/
inductive Chain where
  | base (b : Db)
  | wrap (pred : Preds) (rest : Chain)

/-- The innermost non-proxy store of a chain, as __init__ computes basedb
by walking the db references (proxybase.py lines 95-97). -/
def Chain.baseDb : Chain → Db
  | .base b => b
  | .wrap _ rest => rest.baseDb

/-- The store a chain denotes: the base store itself, or the proxy over
the denotation of the rest. -/
def Chain.toDb : Chain → Db
  | .base b => b
  | .wrap pred rest => proxyDb pred rest.toDb rest.baseDb

/-- A ProxyCursor (proxybase.py lines 42-61): holds the raw accessor and
the handle-list accessor of its kind.  Its scoped entry returns itself and
its scoped exit does nothing. -/
structure ProxyCursor where
  get_raw : PyHandle → Except PyError Struct
  get_handles : Except PyError (List PyHandle)

/-- get_K_cursor (proxybase.py lines 278-316):
ProxyCursor(self.get_raw_K_data, self.get_K_handles). -/
def proxy_get_cursor (pred : Preds) (db basedb : Db) (k : Kind) : ProxyCursor where
  get_raw := proxy_get_raw_data_py pred db k
  get_handles := proxyGetHandles pred db basedb k false

/-- ProxyCursor.__iter__ (proxybase.py lines 59-61): for each handle of
get_handles() yield (bytes(handle, "utf-8"), get_raw(handle)). -/
def ProxyCursor.iterate (c : ProxyCursor) : Except PyError (List (PyHandle × Struct)) := do
  let hs ← c.get_handles
  hs.mapM (fun h => do
    let b ← pyBytes h
    let r ← c.get_raw h
    pure (b, r))

/-- ProxyCursor.__enter__ (proxybase.py lines 50-54): returns self and
touches no underlying store resource. -/
def ProxyCursor.enter (c : ProxyCursor) (resources : Nat) : ProxyCursor × Nat :=
  (c, resources)

/-- ProxyCursor.__exit__ (proxybase.py lines 56-57): its body is pass, so
whatever exit path runs it leaves the underlying store resources as they
were. -/
def ProxyCursor.scopeExit (resources : Nat) : Nat :=
  resources

/-- Helper for pySplit: split a character list on underscores, keeping
empty pieces, as Python str.split does. -/
def splitUAux (cur : List Char) : List Char → List (List Char)
  | [] => [cur.reverse]
  | c :: cs =>
    if c = '_' then cur.reverse :: splitUAux [] cs
    else splitUAux (c :: cur) cs

/-- Python name.split("_") (proxybase.py line 594). -/
def pySplit (s : String) : List String :=
  (splitUAux [] s.toList).map (fun cs => String.mk cs)

/-- The outcome of an attribute lookup that reaches
ProxyDbBase.__getattr__ (proxybase.py lines 590-612). -/
inductive Attr where
  | pyTrue
  | unfiltered (k : Kind)
  | raiseAttributeError
  | raiseIndexError
  | forwardToDb
deriving DecidableEq, Repr

/-- ProxyDbBase.__getattr__ (proxybase.py lines 590-612).  writeNames
tells whether a name is a plain function member of DbWriteBase.__dict__
not starting with a double underscore; DbWriteBase itself is outside the
shown source, so the set is a parameter here.  The name "readonly"
answers True; a name splitting on underscore to get/unfiltered/... is
synthesized from the base store (IndexError when there is no third part,
AttributeError when the base store has no such accessor); a write name
raises AttributeError; everything else is forwarded to the wrapped db. -/
def getattrFallback (writeNames : String → Bool) (name : String) : Attr :=
  if name = "readonly" then .pyTrue
  else
    let sname := pySplit name
    if sname.take 2 = ["get", "unfiltered"] then
      match sname.get? 2 with
      | none => .raiseIndexError
      | some part =>
        match kindOfName part with
        | some k => .unfiltered k
        | none => .raiseAttributeError
    else if writeNames name then .raiseAttributeError
    else .forwardToDb

/-- Modelled from the spec: the write-capable operation names of the
writable-store contract (DbWriteBase), whose class is not part of the
shown source; the spec names "add person" as an example and describes
add/commit/remove per kind plus transaction operations. -/
def writeNamesSpec (name : String) : Bool :=
  name ∈ [
    "add_person", "add_family", "add_event", "add_place", "add_source",
    "add_citation", "add_repository", "add_media", "add_note", "add_tag",
    "commit_person", "commit_family", "commit_event", "commit_place",
    "commit_source", "commit_citation", "commit_repository", "commit_media",
    "commit_note", "commit_tag",
    "remove_person", "remove_family", "remove_event", "remove_place",
    "remove_source", "remove_citation", "remove_repository", "remove_media",
    "remove_note", "remove_tag",
    "transaction_begin", "transaction_commit", "transaction_abort",
    "set_name_group_mapping", "set_default_person_handle"]

/-- Instance attribute lookup for a name that __getattr__ would handle:
Python consults the instance dictionary first (so a cached synthesized
accessor is reused), and only on a miss runs __getattr__, which in the
get_unfiltered branch calls setattr before returning (proxybase.py lines
596-604). -/
def getattrCached (writeNames : String → Bool) (cache : List (String × Kind))
    (name : String) : Attr × List (String × Kind) :=
  match cache.lookup name with
  | some k => (.unfiltered k, cache)
  | none =>
    match getattrFallback writeNames name with
    | .unfiltered k => (.unfiltered k, (name, k) :: cache)
    | a => (a, cache)

/-- The function a synthesized Attr stands for: getattr(self.basedb,
"get_" + kind + "_from_handle") is the lookup-by-handle of the innermost
base store. -/
def Attr.accessor (a : Attr) (basedb : Db) : Option (String → Option Obj) :=
  match a with
  | .unfiltered k => some (basedb.get_from_handle k)
  | _ => none

/-- Whether an optional predicate accepts an entity: an unset predicate
accepts everything, a set one is asked about the entity handle. -/
def acceptedBy (p : Option (String → Bool)) (o : Obj) : Bool :=
  match p with
  | none => true
  | some f => f o.handle

/-- Whether an optional predicate, used as the first argument of a Python
filter over handles, keeps a handle: a set predicate is asked, None keeps
the truthy handles. -/
def keptBy (p : Option (String → Bool)) (h : String) : Bool :=
  match p with
  | none => pyTruthy h
  | some f => f h

/-- The Python value get_K_handles() holds for a visible handle: bytes for
the kinds served from the base store index, str for the rest. -/
def encodedHandle (k : Kind) (h : String) : PyHandle :=
  if usesBaseSort k then .bytes h else .str h

/-- Well-formedness of a concrete wrapped store: it is open, its handle
iteration enumerates exactly the handles its lookup finds, a found entity
carries the handle it was found under, and its per-kind handle list is a
bytes encoding of exactly its handles. -/
structure WF (B : Db) : Prop where
  open_true : B.is_open = true
  iter_get : ∀ k h, h ∈ B.iter_handles k ↔ (B.get_from_handle k h).isSome = true
  handle_coh : ∀ k h o, B.get_from_handle k h = some o → o.handle = h
  base_list : ∀ k sort, ∃ bs, B.get_handles k sort = .ok bs ∧
    (∀ x ∈ bs, ∃ s, x = PyHandle.bytes s) ∧
    (∀ s, PyHandle.bytes s ∈ bs ↔ s ∈ B.iter_handles k)

/-- A concrete store with one entity of handle "a" in every kind. -/
def oA : Obj :=
  ⟨"a", true, 7⟩

/-- A tiny well-formed base store holding oA under every kind. -/
def B1 : Db where
  is_open := true
  get_from_handle := fun _ h => if h = "a" then some oA else none
  get_from_gid := fun _ g => if g = "I1" then some oA else none
  iter_handles := fun _ => ["a"]
  iter_objs := fun _ => [oA]
  get_handles := fun _ _ => .ok [.bytes "a"]
  find_initial_person := some oA

/-- An entity whose handle is the empty string. -/
def oE : Obj :=
  ⟨"", true, 3⟩

/-- A coherent open base store holding one entity under the empty-string
handle in every kind: its iteration and its lookup agree everywhere. -/
def B2 : Db where
  is_open := true
  get_from_handle := fun _ h => if h = "" then some oE else none
  get_from_gid := fun _ _ => none
  iter_handles := fun _ => [""]
  iter_objs := fun _ => [oE]
  get_handles := fun _ _ => .ok [.bytes ""]
  find_initial_person := none

/-- A concrete always-true person predicate, used to instantiate chain
composition. -/
def fW1 : String → Bool :=
  fun _ => true

/-- A concrete person predicate keeping only the handle "a". -/
def fW2 : String → Bool :=
  fun s => s == "a"

/-- A predicate assignment setting every kind predicate to fW1. -/
def pW1 : Preds :=
  fun _ => some fW1

/-- A predicate assignment setting every kind predicate to fW2. -/
def pW2 : Preds :=
  fun _ => some fW2

/-! ## Helper lemmas -/

theorem gfilter_eq_some (p : Option (String → Bool)) (x : Option Obj) (o : Obj) :
    gfilter p x = some o ↔ x = some o ∧ acceptedBy p o = true := by
  cases p with
  | none => simp [gfilter, acceptedBy]
  | some f =>
    cases x with
    | none => simp [gfilter]
    | some o2 =>
      simp only [gfilter, acceptedBy]
      by_cases hf : f o2.handle
      · simp only [hf, if_true]
        constructor
        · rintro h2
          cases h2
          exact ⟨rfl, hf⟩
        · rintro ⟨h2, _⟩
          exact h2
      · simp only [hf, if_false]
        constructor
        · rintro ⟨⟩
        · rintro ⟨h2, hacc⟩
          cases h2
          exact absurd hacc (by simp [hf])

theorem gfilter_eq_none (p : Option (String → Bool)) (x : Option Obj) :
    gfilter p x = none ↔
      x = none ∨ ∃ o, x = some o ∧ acceptedBy p o = false := by
  cases p with
  | none =>
    cases x <;> simp [gfilter, acceptedBy]
  | some f =>
    cases x with
    | none => simp [gfilter]
    | some o2 =>
      simp only [gfilter, acceptedBy]
      by_cases hf : f o2.handle <;> simp [hf]

theorem gfilter_isSome_iff (p : Option (String → Bool)) (x : Option Obj) :
    (gfilter p x).isSome = true ↔ ∃ o, x = some o ∧ acceptedBy p o = true := by
  rw [Option.isSome_iff_exists]
  constructor
  · rintro ⟨o, ho⟩
    exact ⟨o, (gfilter_eq_some p x o).mp ho⟩
  · rintro ⟨o, ho⟩
    exact ⟨o, (gfilter_eq_some p x o).mpr ho⟩

theorem mem_pyFilter (p : Option (String → Bool)) (xs : List String) (h : String) :
    h ∈ pyFilter p xs ↔ h ∈ xs ∧ keptBy p h = true := by
  cases p <;> simp [pyFilter, keptBy, List.mem_filter]

theorem filterDecodeMem_ok (proxied : List String) (l : List PyHandle)
    (hb : ∀ x ∈ l, ∃ s, x = PyHandle.bytes s) :
    filterDecodeMem proxied l = .ok (l.filter (bytesMem proxied)) := by
  induction l with
  | nil => rfl
  | cons x xs ih =>
    obtain ⟨s, rfl⟩ := hb x (List.mem_cons_self x xs)
    have hrest := ih (fun y hy => hb y (List.mem_cons_of_mem _ hy))
    simp only [filterDecodeMem, pyStr, hrest, List.filter_cons, bytesMem, bind,
      Except.bind, pure, Except.pure]
    by_cases hs : s ∈ proxied <;> simp [hs]

theorem B1_wf : WF B1 := by
  refine ⟨rfl, ?_, ?_, ?_⟩
  · intro k h
    by_cases hh : h = "a" <;> simp [B1, hh]
  · intro k h o hget
    simp only [B1] at hget
    split at hget
    · next hh =>
      cases hget
      simpa [oA] using hh.symm
    · exact absurd hget (by simp)
  · intro k sort
    refine ⟨[.bytes "a"], rfl, ?_, ?_⟩
    · intro x hx
      simp only [List.mem_singleton] at hx
      exact ⟨"a", hx⟩
    · intro s
      simp [B1]

theorem B2_wf : WF B2 := by
  refine ⟨rfl, ?_, ?_, ?_⟩
  · intro k h
    by_cases hh : h = "" <;> simp [B2, hh]
  · intro k h o hget
    simp only [B2] at hget
    split at hget
    · next hh =>
      cases hget
      simpa [oE] using hh.symm
    · exact absurd hget (by simp)
  · intro k sort
    refine ⟨[.bytes ""], rfl, ?_, ?_⟩
    · intro x hx
      simp only [List.mem_singleton] at hx
      exact ⟨"", hx⟩
    · intro s
      simp [B2]

/-- C1: for every kind K and handle h, get_K_from_handle returns exactly
the entity the wrapped store returns, when that entity is present and the
kind predicate, when one is set, accepts it; in every other case (absent,
or excluded by the predicate) it returns None.  The embedding is
Option-valued because no path of the source raises: gfilter only tests and
returns. -/
theorem C1_get_from_handle_filtered (pred : Preds) (db basedb : Db) (k : Kind)
    (h : String) (o : Obj) :
    ((proxyDb pred db basedb).get_from_handle k h = some o ↔
      db.get_from_handle k h = some o ∧ acceptedBy (pred k) o = true) ∧
    ((proxyDb pred db basedb).get_from_handle k h = none ↔
      db.get_from_handle k h = none ∨
        ∃ o2, db.get_from_handle k h = some o2 ∧ acceptedBy (pred k) o2 = false) :=
  ⟨gfilter_eq_some (pred k) (db.get_from_handle k h) o,
   gfilter_eq_none (pred k) (db.get_from_handle k h)⟩

/-- C3 (amended): with the kind predicate left at its default None,
get_K_from_handle, get_K_from_gid and iter_Ks return exactly what the
wrapped store returns; iter_K_handles returns the wrapped store handle
iteration restricted to its truthy (nonempty) handles — Python
filter(None, xs) keeps the truthy elements — hence is transparent exactly
when the wrapped store yields no empty-string handle. -/
theorem C3_default_transparent (pred : Preds) (db basedb : Db) (k : Kind)
    (hk : pred k = none) :
    (∀ h, (proxyDb pred db basedb).get_from_handle k h = db.get_from_handle k h) ∧
    (∀ g, (proxyDb pred db basedb).get_from_gid k g = db.get_from_gid k g) ∧
    (proxyDb pred db basedb).iter_objs k = db.iter_objs k ∧
    (proxyDb pred db basedb).iter_handles k = (db.iter_handles k).filter pyTruthy ∧
    ("" ∉ db.iter_handles k →
      (proxyDb pred db basedb).iter_handles k = db.iter_handles k) := by
  refine ⟨?_, ?_, ?_, ?_, ?_⟩
  · intro h
    show gfilter (pred k) (db.get_from_handle k h) = _
    rw [hk]
    cases db.get_from_handle k h <;> rfl
  · intro g
    show gfilter (pred k) (db.get_from_gid k g) = _
    rw [hk]
    cases db.get_from_gid k g <;> rfl
  · show iterObject (pred k) (db.iter_objs k) = _
    rw [hk]
    simp [iterObject]
  · show pyFilter (pred k) (db.iter_handles k) = _
    rw [hk]
    rfl
  · intro hne
    show pyFilter (pred k) (db.iter_handles k) = _
    rw [hk]
    show (db.iter_handles k).filter pyTruthy = _
    rw [List.filter_eq_self]
    intro a ha
    simp only [pyTruthy, bne_iff_ne, ne_eq]
    rintro rfl
    exact hne ha

theorem C3_witness :
    (∀ h, (proxyDb prNone B1 B1).get_from_handle .event h = B1.get_from_handle .event h) ∧
    (∀ g, (proxyDb prNone B1 B1).get_from_gid .event g = B1.get_from_gid .event g) ∧
    (proxyDb prNone B1 B1).iter_objs .event = B1.iter_objs .event ∧
    (proxyDb prNone B1 B1).iter_handles .event = (B1.iter_handles .event).filter pyTruthy ∧
    ("" ∉ B1.iter_handles .event →
      (proxyDb prNone B1 B1).iter_handles .event = B1.iter_handles .event) :=
  C3_default_transparent prNone B1 B1 .event rfl

/-- C3 counterexample: B2 is a coherent open store holding one entity
under the empty-string handle; with every predicate at its default None,
iter_event_handles drops that handle (filter(None, xs) removes falsy
elements), so the claimed transparency of iter_K_handles fails. -/
theorem C3_counterexample :
    (proxyDb prNone B2 B2).iter_handles .event ≠ B2.iter_handles .event := by
  decide

/-- C7: get_raw_K_data serializes, with to_struct, exactly the entity the
filtered lookup get_K_from_handle currently returns — it is a function of
that lookup alone, so it re-serializes rather than replaying a cached byte
copy (third conjunct: two stores whose filtered lookup at h agree give
equal raw data) — and when the handle is excluded or absent the call
raises (AttributeError from None.to_struct()) instead of returning a
null-valued serialization. -/
theorem C7_raw_data_serializes_filtered (pred : Preds) (db db2 : Db) (k : Kind)
    (h : String) :
    (∀ o, proxy_get_from_handle pred db k h = some o →
      proxy_get_raw_data pred db k h = .ok (to_struct o)) ∧
    (proxy_get_from_handle pred db k h = none →
      proxy_get_raw_data pred db k h = .error .attributeError) ∧
    (proxy_get_from_handle pred db2 k h = proxy_get_from_handle pred db k h →
      proxy_get_raw_data pred db2 k h = proxy_get_raw_data pred db k h) := by
  refine ⟨?_, ?_, ?_⟩
  · intro o ho
    unfold proxy_get_raw_data
    rw [show gfilter (pred k) (db.get_from_handle k h) = some o from ho]
  · intro ho
    unfold proxy_get_raw_data
    rw [show gfilter (pred k) (db.get_from_handle k h) = none from ho]
  · intro hagree
    unfold proxy_get_raw_data
    rw [show gfilter (pred k) (db2.get_from_handle k h) =
        gfilter (pred k) (db.get_from_handle k h) from hagree]

/-- C10: find_initial_person returns the base store initial person exactly
when there is one and its handle passes the proxy filtered person lookup
(has_person_handle); when the base store yields no initial person, or the
initial person is excluded, it returns None. -/
theorem C10_find_initial_person_filtered (pred : Preds) (db basedb : Db) :
    (∀ p, proxy_find_initial_person pred db basedb = some p ↔
      basedb.find_initial_person = some p ∧
        proxy_has_handle pred db .person p.handle = true) ∧
    (basedb.find_initial_person = none →
      proxy_find_initial_person pred db basedb = none) ∧
    (∀ p, basedb.find_initial_person = some p →
      proxy_has_handle pred db .person p.handle = false →
      proxy_find_initial_person pred db basedb = none) := by
  refine ⟨?_, ?_, ?_⟩
  · intro p
    unfold proxy_find_initial_person
    cases hfi : basedb.find_initial_person with
    | none => simp
    | some q =>
      by_cases hq : proxy_has_handle pred db .person q.handle = true
      · simp only [hq, if_true]
        constructor
        · rintro h2
          cases h2
          exact ⟨rfl, hq⟩
        · rintro ⟨h2, _⟩
          cases h2
          rfl
      · simp only [Bool.not_eq_true] at hq
        simp only [hq, Bool.false_eq_true, if_false]
        constructor
        · rintro ⟨⟩
        · rintro ⟨h2, hacc⟩
          cases h2
          exact absurd hacc (by simp [hq])
  · intro hfi
    unfold proxy_find_initial_person
    rw [hfi]
  · intro p hfi hacc
    unfold proxy_find_initial_person
    rw [hfi]
    simp [hacc]

/-- C4: a name that reaches __getattr__ (is not explicitly defined by the
proxy; in particular matches neither the readonly nor the get_unfiltered
special patterns __getattr__ itself serves) and is a write-capable
operation of the writable-store contract raises AttributeError — it is
neither forwarded to the wrapped store nor degraded to a no-op — while a
name that is not write-capable is forwarded to the wrapped store
unchanged.  writeNames stands for membership among the plain function
members of DbWriteBase, a class outside the shown source. -/
theorem C4_write_rejected_read_forwarded (writeNames : String → Bool) (name : String)
    (hro : name ≠ "readonly")
    (hun : (pySplit name).take 2 ≠ ["get", "unfiltered"]) :
    (writeNames name = true →
      getattrFallback writeNames name = .raiseAttributeError) ∧
    (writeNames name = false →
      getattrFallback writeNames name = .forwardToDb) := by
  unfold getattrFallback
  rw [if_neg hro, if_neg hun]
  constructor
  · intro hw
    rw [if_pos hw]
  · intro hw
    rw [if_neg (by simp [hw])]

theorem C4_witness :
    ((writeNamesSpec "add_person" = true →
      getattrFallback writeNamesSpec "add_person" = .raiseAttributeError) ∧
     (writeNamesSpec "add_person" = false →
      getattrFallback writeNamesSpec "add_person" = .forwardToDb)) ∧
    ((writeNamesSpec "get_bookmarks" = true →
      getattrFallback writeNamesSpec "get_bookmarks" = .raiseAttributeError) ∧
     (writeNamesSpec "get_bookmarks" = false →
      getattrFallback writeNamesSpec "get_bookmarks" = .forwardToDb)) :=
  ⟨C4_write_rejected_read_forwarded writeNamesSpec "add_person"
      (by decide) (by decide),
   C4_write_rejected_read_forwarded writeNamesSpec "get_bookmarks"
      (by decide) (by decide)⟩

/-- C5: the get_unfiltered_K attribute, absent from the instance
dictionary, is synthesized by __getattr__ as the lookup-by-handle of the
innermost base store of the proxy chain — so it bypasses every inclusion
predicate along the chain and answers with a present value whenever the
base store lookup does, even for handles the filtered accessors exclude —
and setattr caches it as an instance attribute, so a second request is
served from the instance dictionary unchanged. -/
theorem C5_unfiltered_bypasses_and_caches (wn : String → Bool) (k : Kind)
    (p1 p2 : Preds) (B : Db) :
    getattrCached wn [] ("get_unfiltered_" ++ kindName k) =
      (.unfiltered k, [("get_unfiltered_" ++ kindName k, k)]) ∧
    getattrCached wn [("get_unfiltered_" ++ kindName k, k)]
        ("get_unfiltered_" ++ kindName k) =
      (.unfiltered k, [("get_unfiltered_" ++ kindName k, k)]) ∧
    Attr.accessor (.unfiltered k)
        (Chain.wrap p2 (Chain.wrap p1 (Chain.base B))).baseDb =
      some (B.get_from_handle k) := by
  refine ⟨?_, ?_, rfl⟩ <;> cases k <;> rfl

theorem has_handle_iff_kept (pred : Preds) (B : Db) (k : Kind) (h : String)
    (hig : ∀ h2, h2 ∈ B.iter_handles k ↔ (B.get_from_handle k h2).isSome = true)
    (hcoh : ∀ h2 o, B.get_from_handle k h2 = some o → o.handle = h2)
    (hne : h ≠ "" ∨ pred k ≠ none) :
    proxy_has_handle pred B k h = true ↔
      (h ∈ B.iter_handles k ∧ keptBy (pred k) h = true) := by
  unfold proxy_has_handle
  rw [gfilter_isSome_iff]
  cases hp : pred k with
  | none =>
    have hne2 : h ≠ "" := by
      rcases hne with hne | hne
      · exact hne
      · exact absurd hp hne
    constructor
    · rintro ⟨o, ho, _⟩
      refine ⟨(hig h).mpr (by simp [ho]), ?_⟩
      simp [keptBy, pyTruthy, hne2]
    · rintro ⟨hmem, _⟩
      obtain ⟨o, ho⟩ := Option.isSome_iff_exists.mp ((hig h).mp hmem)
      exact ⟨o, ho, rfl⟩
  | some f =>
    constructor
    · rintro ⟨o, ho, hf⟩
      refine ⟨(hig h).mpr (by simp [ho]), ?_⟩
      simp only [keptBy]
      rw [← hcoh h o ho]
      simpa [acceptedBy] using hf
    · rintro ⟨hmem, hkept⟩
      obtain ⟨o, ho⟩ := Option.isSome_iff_exists.mp ((hig h).mp hmem)
      refine ⟨o, ho, ?_⟩
      simp only [acceptedBy]
      rw [hcoh h o ho]
      simpa [keptBy] using hkept

/-- C2 (amended): over a well-formed open wrapped store, for every kind K
and every handle h that is a nonempty string or whose kind predicate is
set, the three observations agree: has_K_handle(h), presence of
get_K_from_handle(h), and membership of the (suitably encoded) handle in
get_K_handles().  With an unset predicate, Python filter(None, ...) in
iter_K_handles drops the falsy empty-string handle even when the lookup
finds it, so that case is excluded; see the counterexample. -/
theorem C2_observations_agree (pred : Preds) (B : Db) (k : Kind) (h : String)
    (hwf : WF B) (hne : h ≠ "" ∨ pred k ≠ none) :
    (proxy_has_handle pred B k h = true ↔
      ((proxyDb pred B B).get_from_handle k h).isSome = true) ∧
    ∃ res, (proxyDb pred B B).get_handles k false = .ok res ∧
      (proxy_has_handle pred B k h = true ↔ encodedHandle k h ∈ res) := by
  have hhas := has_handle_iff_kept pred B k h (hwf.iter_get k) (hwf.handle_coh k) hne
  refine ⟨Iff.rfl, ?_⟩
  by_cases hu : usesBaseSort k = true
  · obtain ⟨bs, hbs, hbytes, hmem⟩ := hwf.base_list k false
    refine ⟨bs.filter (bytesMem (pyFilter (pred k) (B.iter_handles k))), ?_, ?_⟩
    · show proxyGetHandles pred B B k false = _
      unfold proxyGetHandles
      rw [hwf.open_true, if_pos rfl, if_pos hu, hbs]
      exact filterDecodeMem_ok _ bs hbytes
    · rw [hhas]
      unfold encodedHandle
      rw [if_pos hu, List.mem_filter]
      simp only [bytesMem, decide_eq_true_eq, hmem h, mem_pyFilter]
      tauto
  · refine ⟨(pyFilter (pred k) (B.iter_handles k)).map PyHandle.str, ?_, ?_⟩
    · show proxyGetHandles pred B B k false = _
      unfold proxyGetHandles
      rw [hwf.open_true, if_pos rfl, if_neg hu]
    · rw [hhas]
      unfold encodedHandle
      rw [if_neg hu]
      simp only [List.mem_map, mem_pyFilter, PyHandle.str.injEq,
        exists_eq_right]

theorem C2_witness :
    (proxy_has_handle prNone B1 .event "a" = true ↔
      ((proxyDb prNone B1 B1).get_from_handle .event "a").isSome = true) ∧
    ∃ res, (proxyDb prNone B1 B1).get_handles .event false = .ok res ∧
      (proxy_has_handle prNone B1 .event "a" = true ↔
        encodedHandle .event "a" ∈ res) :=
  C2_observations_agree prNone B1 .event "a" B1_wf (Or.inl (by decide))

/-- C2 counterexample: B2 is a coherent open store (its iteration and its
lookup agree at every handle) holding one entity under the empty-string
handle, with every predicate at its default None.  has_event_handle is
true and get_event_from_handle returns a present value, yet
get_event_handles() is the empty list, so the handle is not a member of
it: the three observations do not agree. -/
theorem C2_counterexample :
    proxy_has_handle prNone B2 .event "" = true ∧
    ((proxyDb prNone B2 B2).get_from_handle .event "").isSome = true ∧
    (proxyDb prNone B2 B2).get_handles .event false = .ok [] := by
  refine ⟨rfl, rfl, rfl⟩

/-- C6: for a kind of the base-sorted family (Person, Family), over an
open wrapped store whose base handle list is byte-encoded, get_K_handles
is exactly the base store list, in the base store order, restricted to
the handles that pass the proxy filtered enumeration (the intersection of
the base list with the filtered set); and for every kind, when the wrapped
store is not open, get_K_handles returns the empty sequence. -/
theorem C6_handles_base_order_intersection (pred : Preds) (db basedb : Db)
    (k : Kind) (sort : Bool) (bs : List PyHandle)
    (huse : usesBaseSort k = true)
    (hopen : db.is_open = true)
    (hbs : basedb.get_handles k sort = .ok bs)
    (hbytes : ∀ x ∈ bs, ∃ s, x = PyHandle.bytes s) :
    (proxyDb pred db basedb).get_handles k sort =
      .ok (bs.filter (bytesMem (proxy_iter_handles pred db k))) ∧
    (∀ (db2 basedb2 : Db) (k2 : Kind) (sort2 : Bool), db2.is_open = false →
      (proxyDb pred db2 basedb2).get_handles k2 sort2 = .ok []) := by
  constructor
  · show proxyGetHandles pred db basedb k sort = _
    unfold proxyGetHandles
    rw [hopen, if_pos rfl, if_pos huse, hbs]
    exact filterDecodeMem_ok _ bs hbytes
  · intro db2 basedb2 k2 sort2 hcl
    show proxyGetHandles pred db2 basedb2 k2 sort2 = _
    unfold proxyGetHandles
    rw [hcl]
    rfl

theorem C6_witness :
    ((proxyDb prNone B1 B1).get_handles .person false =
      .ok ([PyHandle.bytes "a"].filter
        (bytesMem (proxy_iter_handles prNone B1 .person)))) ∧
    (∀ (db2 basedb2 : Db) (k2 : Kind) (sort2 : Bool), db2.is_open = false →
      (proxyDb prNone db2 basedb2).get_handles k2 sort2 = .ok []) :=
  C6_handles_base_order_intersection prNone B1 B1 .person false
    [PyHandle.bytes "a"] rfl rfl rfl
    (by
      intro x hx
      simp only [List.mem_singleton] at hx
      exact ⟨"a", hx⟩)

/-- C8: wrapping proxy P2 around proxy P1 around base store B, with both
kind predicates set, a handle is visible through P2 — by handle iteration
and by filtered lookup alike — exactly when it is a handle of B that
satisfies both predicates: each layer filters the enumeration of its
immediate wrapped reference, so the chain computes the intersection. -/
theorem C8_chain_visible_intersection (p1 p2 : Preds) (B : Db) (k : Kind)
    (h : String) (f1 f2 : String → Bool)
    (hp1 : p1 k = some f1) (hp2 : p2 k = some f2)
    (hcoh : ∀ o, B.get_from_handle k h = some o → o.handle = h) :
    (h ∈ (Chain.wrap p2 (Chain.wrap p1 (Chain.base B))).toDb.iter_handles k ↔
      h ∈ B.iter_handles k ∧ f1 h = true ∧ f2 h = true) ∧
    (((Chain.wrap p2 (Chain.wrap p1 (Chain.base B))).toDb.get_from_handle
        k h).isSome = true ↔
      (B.get_from_handle k h).isSome = true ∧ f1 h = true ∧ f2 h = true) := by
  constructor
  · show h ∈ pyFilter (p2 k) (pyFilter (p1 k) (B.iter_handles k)) ↔ _
    rw [mem_pyFilter, mem_pyFilter, hp1, hp2]
    simp only [keptBy]
    tauto
  · show (gfilter (p2 k) (gfilter (p1 k) (B.get_from_handle k h))).isSome
        = true ↔ _
    rw [hp1, hp2]
    cases hB : B.get_from_handle k h with
    | none => simp [gfilter]
    | some o =>
      have ho := hcoh o hB
      subst ho
      by_cases h1 : f1 o.handle <;> by_cases h2 : f2 o.handle <;>
        simp [gfilter, h1, h2]

theorem C8_witness :
    ("a" ∈ (Chain.wrap pW2 (Chain.wrap pW1 (Chain.base B1))).toDb.iter_handles
        .person ↔
      "a" ∈ B1.iter_handles .person ∧ fW1 "a" = true ∧ fW2 "a" = true) ∧
    (((Chain.wrap pW2 (Chain.wrap pW1 (Chain.base B1))).toDb.get_from_handle
        .person "a").isSome = true ↔
      (B1.get_from_handle .person "a").isSome = true ∧
        fW1 "a" = true ∧ fW2 "a" = true) :=
  C8_chain_visible_intersection pW1 pW2 B1 .person "a" fW1 fW2 rfl rfl
    (fun o => B1_wf.handle_coh .person "a" o)

/-- C9, evaluated at the failing input: over the well-formed open store B1
with every predicate at its default, the Person cursor raises TypeError
during iteration — its handle list comes from the base store index as
bytes (proxybase.py line 326 decodes them with str(hdl, "utf-8")), and
ProxyCursor.__iter__ then applies bytes(handle, "utf-8") to an
already-bytes handle — instead of yielding one (utf-8 encoded handle,
raw record) pair per filtered handle.  An Event cursor over the same
store, whose handles are str, yields exactly the claimed pairs. -/
theorem C9_person_cursor_raises :
    (proxy_get_cursor prNone B1 B1 .person).iterate = .error .typeError ∧
    (proxy_get_cursor prNone B1 B1 .event).iterate =
      .ok [(.bytes "a", to_struct oA)] := by
  constructor <;> rfl
